import Mathlib

/-!
Verification of the Insolar network DHT engine (`dht.go`) against its
natural-language specification.

The Go source of the engine (`NewDHT`, `Store`, `Get`, `FindNode`, `Bootstrap`,
`iterate`, `addNode`, the message handlers, `handleStoreTimers`,
`getExpirationTime`, `RemoteProcedureCall`) is embedded shallowly below.
Helper packages of the repository that are not part of the provided slice
(`routing`, `store`, the transport implementation, base58) are modelled from
the contracts given in the specification; each such definition carries a doc comment
starting with `Modelled from the spec:`.

Machine integers (`int64`, `time.Duration`) are modelled as `Int` with
explicit wrapping modulo 2^64 where the source can overflow.
-/

namespace InsolarNetwork

/-- An abstract network identifier: a byte string (each entry < 256).
In the source IDs and keys are `[]byte` of length `routing.MaxContactsInBucket`. -/
abbrev ID := List Nat

/-- `routing.MaxContactsInBucket` (the Kademlia `K`): bucket capacity and key
length in bytes. -/
def maxContactsInBucket : Nat := 20

/-- `routing.KeyBitSize`: number of key bits, and the number of buckets. -/
def keyBitSize : Nat := 160

/-- `routing.ParallelCalls` (the Kademlia `α`). -/
def parallelCalls : Nat := 3

/-- Byte-wise XOR of two IDs (Kademlia distance, before comparison). -/
def xorBytes : ID → ID → List Nat
  | a :: as, b :: bs => Nat.xor a b :: xorBytes as bs
  | _, _ => []

/-- Big-endian value of a byte string, used to compare XOR distances as
big-endian unsigned integers. -/
def bytesToNat : List Nat → Nat
  | [] => 0
  | b :: bs => b * 256 ^ bs.length + bytesToNat bs

/-- XOR distance between two IDs, as a natural number. -/
def xorDistance (a b : ID) : Nat := bytesToNat (xorBytes a b)

/-- Index, counted from the most significant bit, of the highest set bit of a
byte; 7 for a zero byte (callers only pass non-zero XOR bytes). -/
def highestSetBitFromMsb (x : Nat) : Nat :=
  if 128 ≤ x then 0
  else if 64 ≤ x then 1
  else if 32 ≤ x then 2
  else if 16 ≤ x then 3
  else if 8 ≤ x then 4
  else if 4 ≤ x then 5
  else if 2 ≤ x then 6
  else 7

/-- Modelled from the spec: `routing.GetBucketIndexFromDifferingBit` is not in
the provided slice.  Spec §4.1: "`bucket-index(self, other)` = index of the
highest-order bit in which `self` and `other` differ, with bit 0 being the most
significant."  For equal IDs the spec leaves the index undefined (callers must
avoid); this model returns 8·(byte length) there. -/
def getBucketIndexFromDifferingBit : ID → ID → Nat
  | a :: as, b :: bs =>
    if a = b then 8 + getBucketIndexFromDifferingBit as bs
    else highestSetBitFromMsb (Nat.xor a b)
  | _, _ => 0

/-- A routing-table entry (`routing.RouteNode`); only the ID matters for the
properties below. -/
structure RouteNode where
  id : ID
  deriving DecidableEq, Repr

/-- The routing table of one identity (`routing.HashTable`): origin ID, the array of
`KeyBitSize` buckets (indexed by `Nat`), and the per-bucket refresh clocks
(nanosecond timestamps). -/
structure HashTable where
  originID : ID
  table : Nat → List RouteNode
  refreshTimes : Nat → Int

/-- Outcome of the full-bucket ping in `addNode`: the transport send failed,
the head node replied within `PingTimeout`, or it timed out. -/
inductive PingOutcome
  | sendFailed
  | replied
  | timedOut
  deriving DecidableEq, Repr

/-- Modelled from the spec: `routing.HashTable.DoesNodeExistInBucket` —
membership test of an ID in a bucket (§4.2). -/
def nodeExistsInBucket (bucket : List RouteNode) (id : ID) : Bool :=
  bucket.any (fun r => r.id = id)

/-- Modelled from the spec: `routing.HashTable.MarkNodeAsSeen` — "moves entry
to tail of its bucket; updates last-seen" (§4.2).  Timestamps are not tracked
here, so this is the move-to-tail. -/
def markNodeAsSeen (bucket : List RouteNode) (id : ID) : List RouteNode :=
  bucket.filter (fun r => r.id ≠ id) ++ bucket.filter (fun r => r.id = id)

/-- `DHT.addNode`, restricted to the bucket it touches.  From the source:
existing ID ⟹ mark as seen; space left ⟹ append at tail; full bucket ⟹ ping
the head: on send failure `bucket = append(bucket, node); bucket = bucket[1:]`,
on a reply `return` (bucket left as it was), on timeout
`bucket = bucket[1:]; bucket = append(bucket, node)`. -/
def addNodeBucket (bucket : List RouteNode) (node : RouteNode)
    (outcome : PingOutcome) : List RouteNode :=
  if nodeExistsInBucket bucket node.id then markNodeAsSeen bucket node.id
  else if bucket.length = maxContactsInBucket then
    match outcome with
    | .sendFailed => (bucket ++ [node]).drop 1
    | .replied => bucket
    | .timedOut => bucket.drop 1 ++ [node]
  else bucket ++ [node]

/-- `DHT.addNode` on a whole table: computes
`index = GetBucketIndexFromDifferingBit(ht.Origin.ID, node.ID)` and rewrites
`ht.RoutingTable[index]`. -/
def addNode (ht : HashTable) (node : RouteNode) (outcome : PingOutcome) :
    HashTable :=
  let index := getBucketIndexFromDifferingBit ht.originID node.id
  { ht with
    table := fun i =>
      if i = index then addNodeBucket (ht.table index) node outcome
      else ht.table i }

/-- Wrap of a mathematical integer into the signed 64-bit range
(the `int64` arithmetic of Go wraps deterministically). -/
def wrap64 (x : Int) : Int := (x + 2 ^ 63) % 2 ^ 64 - 2 ^ 63

/-- Modelled from the Go standard library: `int64(math.Exp(float64(n)))` for
the small integer arguments the engine can produce (`n = K / score ≤ 20`).
`math.Exp` is the IEEE-754 double exponential (error below 1 ulp); the `int64`
conversion truncates toward zero.  Every `exp n` for `n ≤ 20` is several
tenths away from an integer, so these truncations are unambiguous. -/
def goExpTruncated : Nat → Int
  | 0 => 1
  | 1 => 2
  | 2 => 7
  | 3 => 20
  | 4 => 54
  | 5 => 148
  | 6 => 403
  | 7 => 1096
  | 8 => 2980
  | 9 => 8103
  | 10 => 22026
  | 11 => 59874
  | 12 => 162754
  | 13 => 442413
  | 14 => 1202604
  | 15 => 3269017
  | 16 => 8886110
  | 17 => 24154952
  | 18 => 65659969
  | 19 => 178482300
  | 20 => 485165195
  | _ => 0

/-- The density score of `DHT.getExpirationTime`:
`bucket = GetBucketIndexFromDifferingBit(key, ht.Origin.ID)`,
`total = Σ_{i<bucket} GetTotalNodesInBucket(i)`,
`closer = len(GetAllNodesInBucketCloserThan(bucket, key))`
(spec §4.2: entries of bucket `bucket` whose distance to `key` is strictly
less than the distance from the origin to `key`), `score = total + closer`, raised
to 1 when it is 0. -/
def densityScore (ht : HashTable) (key : ID) : Nat :=
  let bucket := getBucketIndexFromDifferingBit key ht.originID
  let total := ((List.range bucket).map (fun i => (ht.table i).length)).sum
  let closer := ((ht.table bucket).filter
    (fun r => xorDistance r.id key < xorDistance ht.originID key)).length
  let score := total + closer
  if score = 0 then 1 else score

/-- The duration (in nanoseconds) that `DHT.getExpirationTime` adds to `now`,
as a function of the density score.  From the source:
`if score > routing.MaxContactsInBucket { return now.Add(ExpirationTime) }`;
otherwise
`seconds := day.Nanoseconds() * int64(math.Exp(float64(routing.MaxContactsInBucket/score)))`
(note: Go integer division of `MaxContactsInBucket` by `score`), then
`dur := time.Second * time.Duration(seconds)` (the nanosecond-scaled product
is multiplied by a further 10⁹, wrapping in `int64`). -/
def getExpirationDurationNs (expirationTimeNs : Int) (score : Nat) : Int :=
  if maxContactsInBucket < score then expirationTimeNs
  else
    let seconds :=
      wrap64 (expirationTimeNs * goExpTruncated (maxContactsInBucket / score))
    wrap64 (1000000000 * seconds)

/-- `DHT.getExpirationTime`: the expiration deadline (nanosecond timestamp)
stored for `key` at time `now`, with `ExpirationTime` given in nanoseconds. -/
def getExpirationTime (ht : HashTable) (key : ID)
    (now expirationTimeNs : Int) : Int :=
  now + getExpirationDurationNs expirationTimeNs (densityScore ht key)

/-- The expiration duration as the words of the specification state it:
"expiration = now + ExpirationTime · exp(K / score)" with real-valued division
of `K` by `score`, and "if score > K: expiration = now + ExpirationTime". -/
noncomputable def specExpirationDurationNs (expirationTimeNs : Int)
    (score : Nat) : ℝ :=
  if maxContactsInBucket < score then (expirationTimeNs : ℝ)
  else (expirationTimeNs : ℝ) *
    Real.exp ((maxContactsInBucket : ℝ) / (score : ℝ))

/-- Modelled from the spec: `routing.HashTable.GetRandomIDFromBucket` —
"returns an ID that would fall into bucket i (used to refresh that bucket)"
(§4.2).  This model keeps the origin bits above position `bucket`, flips the
bit at position `bucket` (bit 0 = most significant), and fills the lower bits
of that byte from the randomness parameter; subsequent bytes are drawn from
the randomness as well. -/
def getRandomIDFromBucket (origin : ID) (bucket : Nat) (rand : Nat) : ID :=
  let j := bucket / 8
  let p := bucket % 8
  origin.mapIdx fun idx b =>
    if idx < j then b
    else if idx = j then
      (b >>> (8 - p)) <<< (8 - p) + (1 - (b >>> (7 - p)) % 2) * 2 ^ (7 - p) +
        rand % 2 ^ (7 - p)
    else rand % 256

/-- The refresh pass of `DHT.handleStoreTimers`, for one table and one tick:
for every bucket index `i < routing.KeyBitSize`, when
`time.Since(ht.GetRefreshTimeForBucket(i)) > options.RefreshTime` the engine
draws `id := ht.GetRandomIDFromBucket(routing.MaxContactsInBucket)` (note the
constant bucket argument taken verbatim from the source) and issues
`iterate(IterateBootstrap, id)`.  The returned list records the issued
bootstrap calls as (idle bucket index, target ID) pairs; `rands i` supplies
the randomness consumed by the i-th draw. -/
def refreshPass (ht : HashTable) (now refreshTimeNs : Int)
    (rands : Nat → Nat) : List (Nat × ID) :=
  (List.range keyBitSize).filterMap fun i =>
    if refreshTimeNs < now - ht.refreshTimes i then
      some (i, getRandomIDFromBucket ht.originID maxContactsInBucket (rands i))
    else none

/-- The final Store fan-out of `DHT.iterate` (`case routing.IterateStore`):
walk `routeSet.Nodes()`, stop (returning `(nil, nil)`) once
`routing.MaxContactsInBucket` receivers have been sent to, and for each
receiver run `future, _ := dht.transport.SendRequest(msg); future.Cancel()`.
Modelled from the spec: the transport implementation is not in the provided
slice; as in every other `SendRequest` call site of the engine (which all
check `err` before using the future), a failed send yields an error and no
future.  Because the fan-out discards the error and unconditionally invokes
`Cancel` on the returned future, a failed send leaves no future to cancel —
a nil-interface method call, i.e. a runtime panic, modelled as `none`.
On success the list of receivers actually sent to is returned. -/
def storeRequestFanout (sendOk : RouteNode → Bool) :
    List RouteNode → Nat → Option (List RouteNode)
  | [], _ => some []
  | r :: rest, i =>
    if maxContactsInBucket ≤ i then some []
    else if sendOk r then
      match storeRequestFanout sendOk rest (i + 1) with
      | some sent => some (r :: sent)
      | none => none
    else none

/-- `message.ResponseDataRPC`: the payload of an RPC response. -/
structure ResponseDataRPC where
  success : Bool
  result : List Nat
  error : String
  deriving DecidableEq, Repr

/-- What the awaited future of `RemoteProcedureCall` yields: the result
channel was closed, `MessageTimeout` elapsed, or a response arrived. -/
inductive FutureOutcome
  | closed
  | timedOut
  | resp (r : ResponseDataRPC)
  deriving DecidableEq, Repr

/-- The environment `RemoteProcedureCall` interacts with, made explicit:
the outcome of `FindNode` (error / not found / found node), whether the
target is the local node, the local invocation result for that case, the
outcome of `transport.SendRequest`, and what the future yields. -/
structure RPCEnv where
  findNode : Except String (Option RouteNode)
  isSelf : Bool
  localInvoke : Except String (List Nat)
  send : Except String Unit
  outcome : FutureOutcome

/-- `DHT.RemoteProcedureCall`, as a function of its environment.  Returns the
`(result, err)` pair (as an `Except`) together with whether `future.Cancel()`
was invoked.  Error strings are the literals of the source: `"targetNode not
found"`, `"chanel closed unexpectedly"`, `"timeout"`, and the handler-carried
`response.Error` when `response.Success` is false. -/
def remoteProcedureCall (env : RPCEnv) : Except String (List Nat) × Bool :=
  match env.findNode with
  | .error e => (.error e, false)
  | .ok none => (.error "targetNode not found", false)
  | .ok (some _) =>
    if env.isSelf then (env.localInvoke, false)
    else
      match env.send with
      | .error e => (.error e, false)
      | .ok _ =>
        match env.outcome with
        | .closed => (.error "chanel closed unexpectedly", false)
        | .timedOut => (.error "timeout", true)
        | .resp r =>
          (if r.success then .ok r.result else .error r.error, false)

/-- Modelled from the spec: the in-memory key/value store (§4.3, not in the
provided slice), reduced to the key→value mapping; deadlines and the
origin-publisher flag do not affect the claims below. -/
abbrev LocalStore := List (ID × List Nat)

/-- Modelled from the spec: `store.Store` — "overwrites prior value for key"
(§4.3). -/
def storePut (st : LocalStore) (key : ID) (value : List Nat) : LocalStore :=
  st.filter (fun kv => kv.1 ≠ key) ++ [(key, value)]

/-- Modelled from the spec: `store.Retrieve(key) -> (value, exists)` (§4.3). -/
def storeRetrieve (st : LocalStore) (key : ID) : Option (List Nat) :=
  (st.find? (fun kv => kv.1 = key)).map (fun kv => kv.2)

/-- The observable outcome of `DHT.Get`: the returned `(value, exists, err)`
triple, plus how many local store lookups and network iterations ran. -/
structure GetOutcome where
  value : Option (List Nat)
  found : Bool
  error : Option String
  storeLookups : Nat
  iterations : Nat
  deriving DecidableEq, Repr

/-- `DHT.Get`.  `decode` stands for `base58.Decode` (external library, at the
user boundary per spec §4.1); `iterResult` is the outcome the
`IterateFindValue` iteration would produce if run.  From the source: decode;
reject with `"invalid key"` when the decoded length differs from
`routing.MaxContactsInBucket`; otherwise `store.Retrieve`; on a miss run
`iterate(IterateFindValue)`, propagate its error, and report `exists` true
iff it produced a value. -/
def dhtGet (decode : String → ID) (st : LocalStore)
    (iterResult : Except String (Option (List Nat))) (key : String) :
    GetOutcome :=
  let keyBytes := decode key
  if keyBytes.length ≠ maxContactsInBucket then
    { value := none, found := false, error := some "invalid key",
      storeLookups := 0, iterations := 0 }
  else
    match storeRetrieve st keyBytes with
    | some v =>
      { value := some v, found := true, error := none,
        storeLookups := 1, iterations := 0 }
    | none =>
      match iterResult with
      | .error e =>
        { value := none, found := false, error := some e,
          storeLookups := 1, iterations := 1 }
      | .ok v =>
        { value := v, found := v.isSome, error := none,
          storeLookups := 1, iterations := 1 }

/-- `DHT.Store`.  `hash` stands for `store.NewKey` (modelled from the spec:
"Key = content hash of value, length K", §4.3) and `encode` for
`base58.Encode`.  The local `store.Store` (memory store, always succeeds) runs
first; then the `IterateStore` iteration, whose failure `iterErr` is
propagated as `("", err)`; on success the base58-encoded key is returned. -/
def dhtStore (hash : List Nat → ID) (encode : ID → String) (st : LocalStore)
    (iterErr : Option String) (data : List Nat) :
    Except String String × LocalStore :=
  let key := hash data
  let newStore := storePut st key data
  match iterErr with
  | some e => (.error e, newStore)
  | none => (.ok (encode key), newStore)

/-- `message` types dispatched by `DHT.handleMessages`. -/
inductive MessageType
  | ping
  | findNode
  | findValue
  | store
  | rpc
  deriving DecidableEq, Repr

/-- An inbound message, with the payload fields flattened (`target` for
FindNode/FindValue requests, `data` for Store, `method` for RPC). -/
structure InMessage where
  requestID : ID
  senderID : ID
  mtype : MessageType
  target : ID
  data : List Nat
  method : String

/-- The primitive actions a message handler can take: add the sender to the
routing table, send a response (with or without payload) correlated to a
request-ID, read or write the local store, invoke a registered RPC method. -/
inductive HandlerEffect
  | addSender (id : ID)
  | respond (requestID : ID) (hasPayload : Bool)
  | storeGet (key : ID)
  | storeSet (key : ID)
  | rpcInvoke (method : String)
  deriving DecidableEq, Repr

/-- `DHT.processPing`: reply to `msg.RequestID` with `Response(nil)` — an
empty response — and nothing else. -/
def processPing (msg : InMessage) : List HandlerEffect :=
  [.respond msg.requestID false]

/-- `DHT.processFindNode`: add the sender, then respond with the closest
contacts. -/
def processFindNode (msg : InMessage) : List HandlerEffect :=
  [.addSender msg.senderID, .respond msg.requestID true]

/-- `DHT.processFindValue`: add the sender, look the target up in the local
store, respond with the value or the closest contacts. -/
def processFindValue (msg : InMessage) : List HandlerEffect :=
  [.addSender msg.senderID, .storeGet msg.target, .respond msg.requestID true]

/-- `DHT.processStore`: add the sender, store the carried data under its
content hash.  No response is sent. -/
def processStore (hash : List Nat → ID) (msg : InMessage) :
    List HandlerEffect :=
  [.addSender msg.senderID, .storeSet (hash msg.data)]

/-- `DHT.processRPC`: add the sender, invoke the registered method, respond
with `{success, result, error}`. -/
def processRPC (msg : InMessage) : List HandlerEffect :=
  [.addSender msg.senderID, .rpcInvoke msg.method, .respond msg.requestID true]

/-- The `switch msg.Type` of `DHT.handleMessages`, dispatching to the
per-type handler. -/
def dispatchMessage (hash : List Nat → ID) (msg : InMessage) :
    List HandlerEffect :=
  match msg.mtype with
  | .ping => processPing msg
  | .findNode => processFindNode msg
  | .findValue => processFindValue msg
  | .store => processStore hash msg
  | .rpc => processRPC msg

/-- `routing.HashTable.TotalNodes` (spec §4.2: sum of bucket sizes). -/
def totalNodes (ht : HashTable) : Nat :=
  ((List.range keyBitSize).map (fun i => (ht.table i).length)).sum

/-- A configured bootstrap node (`Options.BootstrapNodes` entry): the ID is
absent for a seed known only by address. -/
structure BootstrapSeed where
  id : Option ID

/-- The environment of `DHT.Bootstrap`: whether the ping send to seed `s` on
behalf of identity `t` succeeds, what (if anything) the corresponding future
yields before `MessageTimeout`, the outcome of any full-bucket ping inside
`addNode`, and the result of the final `IterateBootstrap` iteration. -/
structure BootEnv where
  sendOk : Nat → Nat → Bool
  response : Nat → Nat → Option RouteNode
  pingOutcome : PingOutcome
  iterateErr : Option String

/-- The observable actions of `DHT.Bootstrap`: a ping request sent to a seed,
a future enqueued for it, and the final bootstrap iteration for a table. -/
inductive BootstrapEffect
  | pingSeed (tableIdx seedIdx : Nat)
  | futureCreated (tableIdx seedIdx : Nat)
  | iterateBootstrap (tableIdx : Nat)
  deriving DecidableEq, Repr

/-- Phase 1 of `DHT.Bootstrap` for one identity: for each configured seed,
either ping it (ID-less seed; a failed send is skipped, a successful one
enqueues a future) or insert it directly with `addNode`. -/
def bootstrapSeedsTable (env : BootEnv) (tIdx : Nat) (ht : HashTable)
    (seeds : List BootstrapSeed) :
    HashTable × List BootstrapEffect × List (Nat × Nat) :=
  seeds.enum.foldl
    (fun acc si =>
      match si.2.id with
      | none =>
        if env.sendOk tIdx si.1 then
          (acc.1, acc.2.1 ++ [.pingSeed tIdx si.1, .futureCreated tIdx si.1],
            acc.2.2 ++ [(tIdx, si.1)])
        else (acc.1, acc.2.1 ++ [.pingSeed tIdx si.1], acc.2.2)
      | some nid => (addNode acc.1 ⟨nid⟩ env.pingOutcome, acc.2.1, acc.2.2))
    (ht, [], [])

/-- A hash table with nothing in it, used as the (unreachable) fallback of
positional list access. -/
def emptyHashTable : HashTable :=
  { originID := [], table := fun _ => [], refreshTimes := fun _ => 0 }

/-- Phase 2 of `DHT.Bootstrap`: await each enqueued future; a response adds
the responding seed to the table of the pinging identity, a timeout cancels. -/
def bootstrapAwait (env : BootEnv) (tables : List HashTable)
    (futures : List (Nat × Nat)) : List HashTable :=
  futures.foldl
    (fun ts f =>
      match env.response f.1 f.2 with
      | some sender =>
        ts.set f.1 (addNode (ts.getD f.1 emptyHashTable) sender
          env.pingOutcome)
      | none => ts)
    tables

/-- Phase 3 of `DHT.Bootstrap`: the first identity with at least one known
node runs `iterate(IterateBootstrap, origin)` and Bootstrap returns the
error of that iteration. -/
def bootstrapIterate (env : BootEnv) (tables : List HashTable) :
    Option String × List BootstrapEffect :=
  match tables.enum.find? (fun t => 0 < totalNodes t.2) with
  | some t => (env.iterateErr, [.iterateBootstrap t.1])
  | none => (none, [])

/-- `DHT.Bootstrap`: `if len(dht.options.BootstrapNodes) == 0 { return nil }`,
else the three phases.  Returns the error result, the emitted effects, and
the resulting routing tables. -/
def bootstrap (tables : List HashTable) (seeds : List BootstrapSeed)
    (env : BootEnv) : Option String × List BootstrapEffect × List HashTable :=
  if seeds.length = 0 then (none, [], tables)
  else
    let phase1 := tables.enum.foldl
      (fun acc t =>
        let r := bootstrapSeedsTable env t.1 t.2 seeds
        (acc.1 ++ [r.1], acc.2.1 ++ r.2.1, acc.2.2 ++ r.2.2))
      (([] : List HashTable), ([] : List BootstrapEffect),
        ([] : List (Nat × Nat)))
    let awaited := bootstrapAwait env phase1.1 phase1.2.2
    let final := bootstrapIterate env awaited
    (final.1, phase1.2.1 ++ final.2, awaited)

/-- A full bucket: twenty route nodes with pairwise distinct IDs `[0] … [19]`,
least-recently seen at the head. -/
def fullBucketExample : List RouteNode :=
  (List.range 20).map (fun n => { id := [n] })

/-- All-zero origin ID (20 bytes). -/
def zeroOriginID : ID := List.replicate 20 0

/-- A key differing from `zeroOriginID` only in the least significant bit, so
its bucket index against the origin is 159. -/
def lastBitKey : ID := List.replicate 19 0 ++ [1]

/-- A routing table for the all-zero origin holding eleven nodes in bucket 0,
so that `densityScore` at `lastBitKey` is 11. -/
def elevenNodeTable : HashTable :=
  { originID := zeroOriginID,
    table := fun i => if i = 0 then (List.range 11).map (fun n => { id := [n] }) else [],
    refreshTimes := fun _ => 0 }

/-- An empty routing table for the all-zero origin with all refresh clocks at
time 0, so that every bucket is idle at any later tick. -/
def idleTable : HashTable :=
  { originID := zeroOriginID, table := fun _ => [], refreshTimes := fun _ => 0 }

/-- `markNodeAsSeen` permutes the bucket: it moves the matching entries to the
tail and keeps everything else. -/
theorem markNodeAsSeen_perm (bucket : List RouteNode) (id : ID) :
    (markNodeAsSeen bucket id).Perm bucket := by
  unfold markNodeAsSeen
  have he : (fun r : RouteNode => decide (r.id ≠ id)) =
      fun r => !decide (r.id = id) := by
    funext r
    simp [decide_not]
  rw [he]
  exact List.Perm.trans List.perm_append_comm
    (List.filter_append_perm (fun r => decide (r.id = id)) bucket)

/-- Appending a node whose ID occurs nowhere in the list keeps the mapped IDs
without duplicates. -/
theorem nodup_append_fresh (l : List RouteNode) (node : RouteNode)
    (hnd : (l.map RouteNode.id).Nodup)
    (hfresh : ∀ r ∈ l, r.id ≠ node.id) :
    ((l ++ [node]).map RouteNode.id).Nodup := by
  rw [List.map_append]
  refine List.Nodup.append hnd (by simp) ?_
  intro a ha hb
  simp only [List.map_cons, List.map_nil, List.mem_singleton] at hb
  rcases List.mem_map.mp ha with ⟨r, hr, rfl⟩
  exact hfresh r hr hb

/-- `addNodeBucket` preserves the bucket capacity bound and the uniqueness of
IDs inside the bucket, whatever the ping outcome. -/
theorem addNodeBucket_preserves (bucket : List RouteNode) (node : RouteNode)
    (outcome : PingOutcome)
    (hlen : bucket.length ≤ maxContactsInBucket)
    (hnd : (bucket.map RouteNode.id).Nodup) :
    (addNodeBucket bucket node outcome).length ≤ maxContactsInBucket ∧
      ((addNodeBucket bucket node outcome).map RouteNode.id).Nodup := by
  unfold addNodeBucket
  by_cases hex : nodeExistsInBucket bucket node.id
  · rw [if_pos hex]
    have hperm := markNodeAsSeen_perm bucket node.id
    constructor
    · rw [hperm.length_eq]
      exact hlen
    · exact ((hperm.map RouteNode.id).nodup_iff).mpr hnd
  · rw [if_neg hex]
    have hfresh : ∀ r ∈ bucket, r.id ≠ node.id := by
      intro r hr hcontra
      apply hex
      simp only [nodeExistsInBucket, List.any_eq_true, decide_eq_true_eq]
      exact ⟨r, hr, hcontra⟩
    by_cases hfull : bucket.length = maxContactsInBucket
    · rw [if_pos hfull]
      cases bucket with
      | nil => simp [maxContactsInBucket] at hfull
      | cons h t =>
        have htl : (t.map RouteNode.id).Nodup := by
          simp only [List.map_cons, List.nodup_cons] at hnd
          exact hnd.2
        have htf : ∀ r ∈ t, r.id ≠ node.id := fun r hr =>
          hfresh r (List.mem_cons_of_mem h hr)
        have hta : ((t ++ [node]).map RouteNode.id).Nodup :=
          nodup_append_fresh t node htl htf
        have htlen : (t ++ [node]).length ≤ maxContactsInBucket := by
          simp only [List.length_cons] at hfull
          simp [List.length_append, ← hfull]
        cases outcome with
        | sendFailed => exact ⟨by simpa using htlen, by simpa using hta⟩
        | replied => exact ⟨hlen, hnd⟩
        | timedOut => exact ⟨by simpa using htlen, by simpa using hta⟩
    · rw [if_neg hfull]
      constructor
      · have : bucket.length < maxContactsInBucket := lt_of_le_of_ne hlen hfull
        simp only [List.length_append, List.length_cons, List.length_nil]
        omega
      · exact nodup_append_fresh bucket node hnd hfresh

/-- Claim C8: the bucket-capacity invariant is preserved by add-node.  For
every routing-table state in which every bucket holds at most
`maxContactsInBucket` entries with IDs unique within each bucket, after one
`addNode` call — whatever the ping outcome on a full bucket — every bucket
still holds at most `maxContactsInBucket` entries and IDs remain unique
within each bucket. -/
theorem addNode_preserves_bucket_invariants (ht : HashTable)
    (node : RouteNode) (outcome : PingOutcome)
    (h : ∀ i, (ht.table i).length ≤ maxContactsInBucket ∧
      ((ht.table i).map RouteNode.id).Nodup) :
    ∀ i, ((addNode ht node outcome).table i).length ≤ maxContactsInBucket ∧
      (((addNode ht node outcome).table i).map RouteNode.id).Nodup := by
  intro i
  unfold addNode
  dsimp only
  split
  · exact addNodeBucket_preserves _ node outcome
      (h (getBucketIndexFromDifferingBit ht.originID node.id)).1
      (h (getBucketIndexFromDifferingBit ht.originID node.id)).2
  · exact h i

/-- Witness for C8 at a concrete input: the empty table satisfies the
invariant, and after inserting one node bucket 159 still satisfies it. -/
theorem addNode_preserves_bucket_invariants_witness :
    ((idleTable.table 159).length ≤ maxContactsInBucket ∧
      ((idleTable.table 159).map RouteNode.id).Nodup) ∧
    (((addNode idleTable { id := lastBitKey } .replied).table 159).length ≤
        maxContactsInBucket ∧
      (((addNode idleTable { id := lastBitKey } .replied).table
        159).map RouteNode.id).Nodup) :=
  ⟨⟨by simp [idleTable, maxContactsInBucket], by simp [idleTable]⟩,
    addNode_preserves_bucket_invariants idleTable { id := lastBitKey } .replied
      (fun _ => ⟨by simp [idleTable, maxContactsInBucket], by simp [idleTable]⟩)
      159⟩

/-- Counterexample to claim C2 as stated: on a full bucket whose head replies
to the ping in time, the head is NOT moved to the tail — the source returns
with the bucket untouched.  Concretely, with the full bucket
`[0], [1], …, [19]` and new node `[99]`, the resulting bucket is unchanged:
`[0]` is still at the head, the tail is still `[19]` (not the head entry),
the new node is dropped and the bucket still has K entries. -/
theorem addNodeBucket_replied_head_not_moved :
    addNodeBucket fullBucketExample { id := [99] } .replied =
        fullBucketExample ∧
    (addNodeBucket fullBucketExample { id := [99] } .replied).head? =
        some { id := [0] } ∧
    (addNodeBucket fullBucketExample { id := [99] } .replied).getLast? ≠
        some { id := [0] } ∧
    (addNodeBucket fullBucketExample { id := [99] } .replied).length =
        maxContactsInBucket ∧
    ({ id := [99] } : RouteNode) ∉
        addNodeBucket fullBucketExample { id := [99] } .replied := by decide

/-- Claim C2 as amended: in the add-node procedure on a full bucket, when the
head entry replies to the ping within `PingTimeout`, the bucket is left
exactly as it was — the head entry is kept in place (not moved to the tail),
the new node is dropped, and the bucket still has exactly K entries. -/
theorem addNodeBucket_replied_unchanged (bucket : List RouteNode)
    (node : RouteNode)
    (hfull : bucket.length = maxContactsInBucket)
    (hnew : nodeExistsInBucket bucket node.id = false) :
    addNodeBucket bucket node .replied = bucket := by
  unfold addNodeBucket
  rw [if_neg (by simp [hnew]), if_pos hfull]

/-- Witness for the amended C2 at a concrete input. -/
theorem addNodeBucket_replied_unchanged_witness :
    addNodeBucket fullBucketExample { id := [99] } .replied =
      fullBucketExample :=
  addNodeBucket_replied_unchanged fullBucketExample { id := [99] }
    (by decide) (by decide)

/-- Claim C10: when the configured `BootstrapNodes` list is empty, `Bootstrap`
returns nil immediately: it emits no effects (no ping messages, no futures,
no iteration) and returns every routing table unchanged. -/
theorem bootstrap_empty_seeds_noop (tables : List HashTable) (env : BootEnv) :
    bootstrap tables [] env = (none, [], tables) := by
  simp [bootstrap]

/-- Claim C1, evaluated at a failing input (code bug): in the refresh pass of
`handleStoreTimers` the random ID is drawn with the constant argument
`routing.MaxContactsInBucket` (= 20) instead of the idle bucket index `i`.
With the all-zero origin and every bucket idle, the bootstrap call issued for
idle bucket 0 targets an ID whose bucket index is 20, not 0 — while the
spec-modelled generator, pointed at bucket 0, does produce an ID of bucket
index 0. -/
theorem refreshPass_uses_constant_bucket :
    (0, getRandomIDFromBucket zeroOriginID maxContactsInBucket 0) ∈
      refreshPass idleTable 2 1 (fun _ => 0) ∧
    getBucketIndexFromDifferingBit zeroOriginID
      (getRandomIDFromBucket zeroOriginID maxContactsInBucket 0) = 20 ∧
    getBucketIndexFromDifferingBit zeroOriginID
      (getRandomIDFromBucket zeroOriginID 0 0) = 0 := by decide

set_option maxRecDepth 40000 in
/-- Counterexample to claim C3 as stated: at score 11 (with
`ExpirationTime = 86410 s` and `now = 0`) the deadline computed by the code is
the wrapped 64-bit value −7545226584789090304 ns — negative — whereas the
formula of the claim, `now + ExpirationTime · exp(K / score)` with real-valued
division, is strictly positive.  The code divides K by score in integers
(20 / 11 = 1), truncates `exp`, and multiplies the nanosecond count by a
further 10⁹, overflowing `int64`. -/
theorem getExpirationTime_deviates_from_claim_formula :
    ((getExpirationTime elevenNodeTable lastBitKey 0 86410000000000 : Int) :
        ℝ) ≠
      (0 : ℝ) + specExpirationDurationNs 86410000000000
        (densityScore elevenNodeTable lastBitKey) := by
  have hscore : densityScore elevenNodeTable lastBitKey = 11 := by decide
  have hval : getExpirationTime elevenNodeTable lastBitKey 0 86410000000000 =
      -7545226584789090304 := by decide
  rw [hval, hscore]
  have hpos : (0 : ℝ) < specExpirationDurationNs 86410000000000 11 := by
    unfold specExpirationDurationNs
    rw [if_neg (by decide)]
    have hexp : (0 : ℝ) < Real.exp ((maxContactsInBucket : ℝ) / (11 : ℕ)) :=
      Real.exp_pos _
    have hns : (0 : ℝ) < ((86410000000000 : Int) : ℝ) := by norm_num
    exact mul_pos hns hexp
  intro h
  have hneg : ((-7545226584789090304 : Int) : ℝ) < 0 := by norm_num
  rw [h] at hneg
  linarith

/-- Claim C3 as amended: for a score at most K the stored deadline is
`now + wrap64(10⁹ · wrap64(ExpirationTimeNs · trunc(exp(float64(K div score)))))`
— the quotient `K / score` is Go integer division, the truncated `exp`
multiplier is applied to the nanosecond count of `ExpirationTime`, and that
product is multiplied by a further 10⁹ in wrapping `int64` arithmetic; for
score > K the deadline is `now + ExpirationTime`, as the claim states. -/
theorem getExpirationTime_code_formula (ht : HashTable) (key : ID)
    (now expNs : Int) :
    (densityScore ht key ≤ maxContactsInBucket →
      getExpirationTime ht key now expNs =
        now + wrap64 (1000000000 * wrap64 (expNs *
          goExpTruncated (maxContactsInBucket / densityScore ht key)))) ∧
    (maxContactsInBucket < densityScore ht key →
      getExpirationTime ht key now expNs = now + expNs) := by
  constructor
  · intro h
    unfold getExpirationTime getExpirationDurationNs
    rw [if_neg (by omega)]
  · intro h
    unfold getExpirationTime getExpirationDurationNs
    rw [if_pos h]

set_option maxRecDepth 40000 in
/-- Witness for the amended C3 at a concrete input (score 11). -/
theorem getExpirationTime_code_formula_witness :
    densityScore elevenNodeTable lastBitKey ≤ maxContactsInBucket ∧
    getExpirationTime elevenNodeTable lastBitKey 0 86410000000000 =
      0 + wrap64 (1000000000 * wrap64 (86410000000000 *
        goExpTruncated (maxContactsInBucket /
          densityScore elevenNodeTable lastBitKey))) :=
  ⟨by decide,
    (getExpirationTime_code_formula elevenNodeTable lastBitKey 0
      86410000000000).1 (by decide)⟩

/-- Claim C4, evaluated at a failing input (code bug): in the final Store
fan-out of `iterate`, a failed transport send to the first of two receivers
aborts the fan-out (the ignored error leaves no future, and the unconditional
`future.Cancel()` dereferences nil) instead of continuing with the remaining
receiver; only when every send succeeds does the loop reach all receivers and
return `(nil, nil)`. -/
theorem storeRequestFanout_send_failure_fatal :
    storeRequestFanout (fun r => r.id ≠ [1]) [{ id := [1] }, { id := [2] }] 0 =
        none ∧
    storeRequestFanout (fun _ => true) [{ id := [1] }, { id := [2] }] 0 =
        some [{ id := [1] }, { id := [2] }] := by decide

/-- Claim C5: `RemoteProcedureCall` — when the target is found, the call is
remote, the send succeeds and a response arrives before `MessageTimeout`, the
call returns a non-error result iff the response has `success = true`, and on
`success = false` the error is exactly the handler-carried message; on a
timeout the future is cancelled and the literal `"timeout"` error returned;
when the target is not found the distinct `"targetNode not found"` error is
returned. -/
theorem remoteProcedureCall_cases (env : RPCEnv) (t : RouteNode)
    (r : ResponseDataRPC) :
    (env.findNode = .ok (some t) → env.isSelf = false → env.send = .ok () →
      env.outcome = .resp r →
      ((remoteProcedureCall env).1 = .ok r.result ↔ r.success = true) ∧
      (r.success = false →
        (remoteProcedureCall env).1 = .error r.error)) ∧
    (env.findNode = .ok (some t) → env.isSelf = false → env.send = .ok () →
      env.outcome = .timedOut →
      (remoteProcedureCall env).1 = .error "timeout" ∧
      (remoteProcedureCall env).2 = true) ∧
    (env.findNode = .ok none →
      (remoteProcedureCall env).1 = .error "targetNode not found" ∧
      ("targetNode not found" : String) ≠ "timeout") := by
  refine ⟨?_, ?_, ?_⟩
  · intro hf hs hsend hout
    cases hr : r.success <;>
      simp [remoteProcedureCall, hf, hs, hsend, hout, hr]
  · intro hf hs hsend hout
    simp [remoteProcedureCall, hf, hs, hsend, hout]
  · intro hf
    simp [remoteProcedureCall, hf]

/-- Witness for C5 at a concrete input: a handler-reported failure with
message `"boom"` is surfaced verbatim as the error. -/
theorem remoteProcedureCall_cases_witness :
    (remoteProcedureCall
      { findNode := .ok (some { id := [1] }), isSelf := false,
        localInvoke := .ok [], send := .ok (),
        outcome := .resp { success := false, result := [], error := "boom" }
      }).1 = .error "boom" :=
  ((remoteProcedureCall_cases
      { findNode := .ok (some { id := [1] }), isSelf := false,
        localInvoke := .ok [], send := .ok (),
        outcome := .resp { success := false, result := [], error := "boom" } }
      { id := [1] }
      { success := false, result := [], error := "boom" }).1
    rfl rfl rfl rfl).2 rfl

/-- After `storePut`, retrieving the same key yields the stored value. -/
theorem storeRetrieve_storePut (st : LocalStore) (key : ID)
    (value : List Nat) :
    storeRetrieve (storePut st key value) key = some value := by
  unfold storeRetrieve storePut
  induction st with
  | nil => simp
  | cons kv rest ih =>
    by_cases h : kv.1 = key
    · simp [h]
    · simp [h]

/-- Claim C6: `Store(data)` followed by `Get` of the returned key on the same
node — before expiration, with no intervening sweep — returns `(data, true)`
with no error.  `hash` is the content hash (key length K per spec §4.3) and
`encode`/`decode` the base58 boundary codec (round-tripping on K-byte keys,
spec §8 property 6); the network iteration of `Store` succeeded (`iterErr =
none`), and the `Get` serves from the local store whatever a network
iteration would have produced. -/
theorem store_then_get_roundtrip (hash : List Nat → ID) (encode : ID → String)
    (decode : String → ID) (st : LocalStore) (data : List Nat)
    (iterResult : Except String (Option (List Nat)))
    (hlen : (hash data).length = maxContactsInBucket)
    (hcodec : decode (encode (hash data)) = hash data)
    (k : String) (st2 : LocalStore)
    (hstore : dhtStore hash encode st none data = (.ok k, st2)) :
    dhtGet decode st2 iterResult k =
      { value := some data, found := true, error := none,
        storeLookups := 1, iterations := 0 } := by
  unfold dhtStore at hstore
  simp only [Prod.mk.injEq, Except.ok.injEq] at hstore
  obtain ⟨hk, hst2⟩ := hstore
  subst hk
  subst hst2
  unfold dhtGet
  rw [hcodec, if_neg (by omega), storeRetrieve_storePut]

/-- Witness for C6 at a concrete input. -/
theorem store_then_get_roundtrip_witness :
    dhtGet (fun _ => List.replicate 20 0)
      (storePut [] (List.replicate 20 0) [5]) (.ok none) "k" =
      { value := some [5], found := true, error := none,
        storeLookups := 1, iterations := 0 } :=
  store_then_get_roundtrip (fun _ => List.replicate 20 0) (fun _ => "k")
    (fun _ => List.replicate 20 0) [] [5] (.ok none) (by decide) rfl
    "k" (storePut [] (List.replicate 20 0) [5]) rfl

/-- Claim C7: `Get` rejects any key whose decoding is not exactly K bytes —
returning `(nil, false)` with the `"invalid key"` error, performing no store
lookup and no network iteration — while for a K-byte decoding it serves the
value from the local store when present (no iteration) and otherwise runs the
iterative FindValue. -/
theorem get_rejects_bad_key_and_serves (decode : String → ID)
    (st : LocalStore) (iterResult : Except String (Option (List Nat)))
    (key : String) :
    ((decode key).length ≠ maxContactsInBucket →
      dhtGet decode st iterResult key =
        { value := none, found := false, error := some "invalid key",
          storeLookups := 0, iterations := 0 }) ∧
    (∀ v, (decode key).length = maxContactsInBucket →
      storeRetrieve st (decode key) = some v →
      dhtGet decode st iterResult key =
        { value := some v, found := true, error := none,
          storeLookups := 1, iterations := 0 }) ∧
    ((decode key).length = maxContactsInBucket →
      storeRetrieve st (decode key) = none →
      (dhtGet decode st iterResult key).iterations = 1) := by
  refine ⟨?_, ?_, ?_⟩
  · intro h
    unfold dhtGet
    rw [if_pos h]
  · intro v hlen hhit
    unfold dhtGet
    rw [if_neg (by omega), hhit]
  · intro hlen hmiss
    unfold dhtGet
    rw [if_neg (by omega), hmiss]
    cases iterResult <;> simp

/-- Witness for C7 at a concrete input: a key decoding to 2 bytes is
rejected without a store lookup or an iteration. -/
theorem get_rejects_bad_key_and_serves_witness :
    dhtGet (fun _ => [1, 2]) [] (.ok none) "shortkey" =
      { value := none, found := false, error := some "invalid key",
        storeLookups := 0, iterations := 0 } :=
  (get_rejects_bad_key_and_serves (fun _ => [1, 2]) [] (.ok none)
    "shortkey").1 (by decide)

/-- Claim C9: the Ping handler replies with an empty response carrying the
request-ID of the inbound message and does nothing else — no add-sender, no
store read, no store write — and every other handler does add the sender. -/
theorem processPing_frame (hash : List Nat → ID) (msg : InMessage) :
    dispatchMessage hash { msg with mtype := .ping } =
        [.respond msg.requestID false] ∧
    HandlerEffect.addSender msg.senderID ∉ processPing msg ∧
    (∀ k, HandlerEffect.storeGet k ∉ processPing msg) ∧
    (∀ k, HandlerEffect.storeSet k ∉ processPing msg) ∧
    (msg.mtype ≠ .ping →
      HandlerEffect.addSender msg.senderID ∈ dispatchMessage hash msg) := by
  refine ⟨rfl, by simp [processPing], by simp [processPing],
    by simp [processPing], ?_⟩
  intro hne
  cases htype : msg.mtype <;>
    simp_all [dispatchMessage, processFindNode, processFindValue,
      processStore, processRPC]

/-- Witness for C9 at a concrete input: a FindNode message does add its
sender. -/
theorem processPing_frame_witness :
    HandlerEffect.addSender [7] ∈ dispatchMessage (fun _ => [])
      { requestID := [1], senderID := [7], mtype := .findNode,
        target := [], data := [], method := "" } :=
  (processPing_frame (fun _ => [])
      { requestID := [1], senderID := [7], mtype := .findNode,
        target := [], data := [], method := "" }).2.2.2.2 (by decide)

end InsolarNetwork
